import Mathlib

/-!
Verification development for the shopify-autorewrite webhook pipeline.

The definitions below are a shallow embedding of src/api/shopify-webhook.js
(the authoritative, most recent iteration of the handler): the taxonomy
loader and lookups, brand detection, the classification fall-backs, the
branch ensurer, the collect (membership) creation, the variant option
remapper, and the handler control flow.  External collaborators (the HTTP
layer, the generative service, the remote catalog store) are modelled as
explicit inputs or as an explicit store state; remote write calls are
recorded as an effect trace.
-/

namespace AutoRewrite

/-! ### JavaScript string primitives

The source manipulates strings with trim, toLowerCase/toUpperCase,
NFD-normalization followed by stripping of combining marks, whitespace
collapse, dash unification, includes (substring), startsWith and
replaceAll.  They are modelled character-wise below.  The case and
diacritic tables cover the Latin repertoire this codebase uses
(ASCII plus Latin-1 and the Slovak/Czech Latin-Extended-A letters). -/

/-- Whitespace class used by the regexes and trim in the source. -/
def isJsSpace (c : Char) : Bool :=
  c = ' ' || c = '\t' || c = '\n' || c = '\r' || c = '\x0b' || c = '\x0c' || c = ' '

/-- Lower-casing of a character, as String.prototype.toLowerCase. -/
def jsLowerChar (c : Char) : Char :=
  if 'A' ≤ c ∧ c ≤ 'Z' then Char.ofNat (c.toNat + 32)
  else match c with
  | 'À' => 'à' | 'Á' => 'á' | 'Â' => 'â' | 'Ã' => 'ã' | 'Ä' => 'ä' | 'Å' => 'å'
  | 'È' => 'è' | 'É' => 'é' | 'Ê' => 'ê' | 'Ë' => 'ë'
  | 'Ì' => 'ì' | 'Í' => 'í' | 'Î' => 'î' | 'Ï' => 'ï'
  | 'Ò' => 'ò' | 'Ó' => 'ó' | 'Ô' => 'ô' | 'Õ' => 'õ' | 'Ö' => 'ö'
  | 'Ù' => 'ù' | 'Ú' => 'ú' | 'Û' => 'û' | 'Ü' => 'ü'
  | 'Ç' => 'ç' | 'Ñ' => 'ñ' | 'Ý' => 'ý'
  | 'Č' => 'č' | 'Ď' => 'ď' | 'Ĺ' => 'ĺ' | 'Ľ' => 'ľ' | 'Ň' => 'ň'
  | 'Ŕ' => 'ŕ' | 'Š' => 'š' | 'Ť' => 'ť' | 'Ž' => 'ž' | 'Ě' => 'ě' | 'Ř' => 'ř' | 'Ů' => 'ů'
  | _ => c

/-- Upper-casing of a character, as String.prototype.toUpperCase. -/
def jsUpperChar (c : Char) : Char :=
  if 'a' ≤ c ∧ c ≤ 'z' then Char.ofNat (c.toNat - 32)
  else match c with
  | 'à' => 'À' | 'á' => 'Á' | 'â' => 'Â' | 'ã' => 'Ã' | 'ä' => 'Ä' | 'å' => 'Å'
  | 'è' => 'È' | 'é' => 'É' | 'ê' => 'Ê' | 'ë' => 'Ë'
  | 'ì' => 'Ì' | 'í' => 'Í' | 'î' => 'Î' | 'ï' => 'Ï'
  | 'ò' => 'Ò' | 'ó' => 'Ó' | 'ô' => 'Ô' | 'õ' => 'Õ' | 'ö' => 'Ö'
  | 'ù' => 'Ù' | 'ú' => 'Ú' | 'û' => 'Û' | 'ü' => 'Ü'
  | 'ç' => 'Ç' | 'ñ' => 'Ñ' | 'ý' => 'Ý'
  | 'č' => 'Č' | 'ď' => 'Ď' | 'ĺ' => 'Ĺ' | 'ľ' => 'Ľ' | 'ň' => 'Ň'
  | 'ŕ' => 'Ŕ' | 'š' => 'Š' | 'ť' => 'Ť' | 'ž' => 'Ž' | 'ě' => 'Ě' | 'ř' => 'Ř' | 'ů' => 'Ů'
  | _ => c

/-- Effect of NFD normalization followed by removal of the combining marks
U+0300 to U+036F: each precomposed Latin letter collapses to its base
letter.  The source always lower-cases before stripping, but the table
also covers upper case for robustness. -/
def stripDiaChar (c : Char) : Char :=
  match c with
  | 'à' => 'a' | 'á' => 'a' | 'â' => 'a' | 'ã' => 'a' | 'ä' => 'a' | 'å' => 'a'
  | 'è' => 'e' | 'é' => 'e' | 'ê' => 'e' | 'ë' => 'e' | 'ě' => 'e'
  | 'ì' => 'i' | 'í' => 'i' | 'î' => 'i' | 'ï' => 'i'
  | 'ò' => 'o' | 'ó' => 'o' | 'ô' => 'o' | 'õ' => 'o' | 'ö' => 'o'
  | 'ù' => 'u' | 'ú' => 'u' | 'û' => 'u' | 'ü' => 'u' | 'ů' => 'u'
  | 'ç' => 'c' | 'ñ' => 'n' | 'ý' => 'y' | 'ÿ' => 'y'
  | 'č' => 'c' | 'ď' => 'd' | 'ĺ' => 'l' | 'ľ' => 'l' | 'ň' => 'n'
  | 'ŕ' => 'r' | 'š' => 's' | 'ť' => 't' | 'ž' => 'z' | 'ř' => 'r'
  | 'À' => 'A' | 'Á' => 'A' | 'Â' => 'A' | 'Ã' => 'A' | 'Ä' => 'A' | 'Å' => 'A'
  | 'È' => 'E' | 'É' => 'E' | 'Ê' => 'E' | 'Ë' => 'E' | 'Ě' => 'E'
  | 'Ì' => 'I' | 'Í' => 'I' | 'Î' => 'I' | 'Ï' => 'I'
  | 'Ò' => 'O' | 'Ó' => 'O' | 'Ô' => 'O' | 'Õ' => 'O' | 'Ö' => 'O'
  | 'Ù' => 'U' | 'Ú' => 'U' | 'Û' => 'U' | 'Ü' => 'U' | 'Ů' => 'U'
  | 'Ç' => 'C' | 'Ñ' => 'N' | 'Ý' => 'Y'
  | 'Č' => 'C' | 'Ď' => 'D' | 'Ĺ' => 'L' | 'Ľ' => 'L' | 'Ň' => 'N'
  | 'Ŕ' => 'R' | 'Š' => 'S' | 'Ť' => 'T' | 'Ž' => 'Z' | 'Ř' => 'R'
  | _ => c

/-- Dash unification step of normalize: the characters in the regex
class of hyphen, non-breaking hyphen, en dash and em dash map to the
ASCII hyphen. -/
def dashChar (c : Char) : Char :=
  if c = '‐' ∨ c = '‑' ∨ c = '–' ∨ c = '—' then '-' else c

def jsLower (s : String) : String := String.mk (s.data.map jsLowerChar)

def jsUpper (s : String) : String := String.mk (s.data.map jsUpperChar)

def stripDia (s : String) : String := String.mk (s.data.map stripDiaChar)

/-- String.prototype.trim. -/
def jsTrim (s : String) : String :=
  String.mk (((s.data.dropWhile isJsSpace).reverse.dropWhile isJsSpace).reverse)

/-- Replacement of every maximal run of whitespace by one space: the
replace of a regex of one-or-more whitespace by a single space.  The
flag records whether the previous character was whitespace, so a run
contributes one space. -/
def collapseWsGo (prevWs : Bool) : List Char → List Char
  | [] => []
  | c :: rest =>
    if isJsSpace c then
      if prevWs then collapseWsGo true rest else ' ' :: collapseWsGo true rest
    else c :: collapseWsGo false rest

def collapseWsChars (l : List Char) : List Char := collapseWsGo false l

def collapseWs (s : String) : String := String.mk (collapseWsChars s.data)

/-- normalizeForMatch and the normalize closures in the source: trim,
collapse whitespace, lower-case, strip diacritics, unify dashes. -/
def normalizeForMatch (s : String) : String :=
  String.mk (((collapseWs (jsTrim s)).data.map jsLowerChar).map stripDiaChar |>.map dashChar)

/-- The norm closure of getBrandLeaves: lower-case then strip diacritics
(no trim, no whitespace collapse). -/
def lowerStrip (s : String) : String := stripDia (jsLower s)

/-- The normTag closure of the universal/multi-brand guard: lower-case,
strip diacritics, then trim. -/
def normTag (s : String) : String := jsTrim (stripDia (jsLower s))

/-- Substring test over characters, as String.prototype.includes. -/
def subListOf (pat : List Char) : List Char → Bool
  | [] => pat.isEmpty
  | c :: rest => pat.isPrefixOf (c :: rest) || subListOf pat rest

def containsSub (hay pat : String) : Bool := subListOf pat.data hay.data

/-- String.prototype.startsWith. -/
def jsStartsWith (s pat : String) : Bool := pat.data.isPrefixOf s.data

/-- replaceAll with a fixed non-empty pattern, fuelled by the input
length (each step consumes at least one character). -/
def replaceAllAux (pat rep : List Char) : Nat → List Char → List Char
  | _, [] => []
  | 0, s => s
  | Nat.succ fuel, c :: rest =>
    if pat ≠ [] ∧ pat.isPrefixOf (c :: rest) then
      rep ++ replaceAllAux pat rep fuel ((c :: rest).drop pat.length)
    else
      c :: replaceAllAux pat rep fuel rest

def replaceAllStr (s pat rep : String) : String :=
  String.mk (replaceAllAux pat.data rep.data s.data.length s.data)

/-- JavaScript truthiness for strings: the empty string is falsy. -/
def strTruthy (s : String) : Bool := s ≠ ""

/-- The s-or-t idiom on strings: s if truthy, else t. -/
def jsOr (s t : String) : String := if s = "" then t else s

/-! ### Taxonomy data model

A taxonomy node as it appears in taxonomia.json and in memory.  String
fields that the source only tests for truthiness (name, title) are plain
strings with the empty string standing for an absent or empty field;
node_slug and slug keep the undefined/present distinction because the
loader tests node_slug with a strict undefined comparison; children keeps
the undefined/present distinction because the loader routes on the mere
presence of a children field. -/

inductive FacetRaw where
  | arr (items : List String)
  | str (s : String)
deriving DecidableEq

inductive JNode where
  | mk (name title : String) (node_slug slug : Option String)
      (facets : Option FacetRaw) (children : Option (List JNode))

def JNode.name : JNode → String
  | .mk n _ _ _ _ _ => n

def JNode.title : JNode → String
  | .mk _ t _ _ _ _ => t

def JNode.node_slug : JNode → Option String
  | .mk _ _ ns _ _ _ => ns

def JNode.slugField : JNode → Option String
  | .mk _ _ _ sl _ _ => sl

def JNode.facets : JNode → Option FacetRaw
  | .mk _ _ _ _ f _ => f

def JNode.children : JNode → Option (List JNode)
  | .mk _ _ _ _ _ cs => cs

/-- The node.name-or-node.title expression used throughout the source. -/
def nameOf (n : JNode) : String := jsOr n.name n.title

/-- The coercion of node_slug to a string in getBranchBySlug and in the
truthiness tests: an undefined slug reads as the empty string. -/
def slugOf (n : JNode) : String := (n.node_slug).getD ""

/-- The children list actually traversed: an undefined children field
reads as the empty list (the Array.isArray guard in the source). -/
def childrenOf (n : JNode) : List JNode := (n.children).getD []

mutual
/-- Depth-first search shared by the branch lookups in the source: push
the node on the path, stop at the first node satisfying the predicate
and return the root-to-node path, otherwise search the children in
order. -/
def findPathBy (pred : JNode → Bool) (path : List JNode) : JNode → Option (List JNode)
  | JNode.mk nm tl ns sl fc none =>
    if pred (JNode.mk nm tl ns sl fc none) then some (path ++ [JNode.mk nm tl ns sl fc none])
    else none
  | JNode.mk nm tl ns sl fc (some cs) =>
    if pred (JNode.mk nm tl ns sl fc (some cs)) then
      some (path ++ [JNode.mk nm tl ns sl fc (some cs)])
    else findPathByList pred (path ++ [JNode.mk nm tl ns sl fc (some cs)]) cs

def findPathByList (pred : JNode → Bool) (path : List JNode) : List JNode → Option (List JNode)
  | [] => none
  | c :: rest =>
    match findPathBy pred path c with
    | some r => some r
    | none => findPathByList pred path rest
end

mutual
/-- All nodes of the subtree rooted at a node, in depth-first order. -/
def nodesOf : JNode → List JNode
  | JNode.mk nm tl ns sl fc none => [JNode.mk nm tl ns sl fc none]
  | JNode.mk nm tl ns sl fc (some cs) => JNode.mk nm tl ns sl fc (some cs) :: nodesOfList cs

def nodesOfList : List JNode → List JNode
  | [] => []
  | c :: rest => nodesOf c ++ nodesOfList rest
end

mutual
/-- The leaf walk of getBrandLeaves: collect childless nodes that carry a
truthy node_slug, with the root-to-leaf label path. -/
def leavesWalk (path : List String) : JNode → List (JNode × List String)
  | JNode.mk nm tl ns sl fc none =>
    let me := JNode.mk nm tl ns sl fc none
    if strTruthy (slugOf me) then [(me, path ++ [nameOf me])] else []
  | JNode.mk nm tl ns sl fc (some cs) =>
    let me := JNode.mk nm tl ns sl fc (some cs)
    match cs with
    | [] => if strTruthy (slugOf me) then [(me, path ++ [nameOf me])] else []
    | c :: rest => leavesWalkList (path ++ [nameOf me]) (c :: rest)

def leavesWalkList (path : List String) : List JNode → List (JNode × List String)
  | [] => []
  | c :: rest => leavesWalk path c ++ leavesWalkList path rest
end

/-- Root selected by getBranchBySlug: first root whose lower-cased
name-or-title equals the lower-cased brand name. -/
def findBrandRootLower (tax : List JNode) (brandName : String) : Option JNode :=
  tax.find? (fun r => jsLower (nameOf r) == jsLower brandName)

/-- Root selected by getBrandLeaves: first root whose lower-cased,
diacritic-stripped name-or-title equals the normalized brand name. -/
def findBrandRootNorm (tax : List JNode) (brandName : String) : Option JNode :=
  tax.find? (fun r => lowerStrip (nameOf r) == lowerStrip brandName)

/-- getBranchBySlug: full branch, root to node, of the first node with
exactly this node_slug within the brand root. -/
def getBranchBySlug (tax : List JNode) (brandName nodeSlug : String) : List JNode :=
  if tax.isEmpty || brandName = "" || nodeSlug = "" then []
  else
    match findBrandRootLower tax brandName with
    | none => []
    | some root => (findPathBy (fun n => slugOf n == nodeSlug) [] root).getD []

/-- getBrandLeaves: leaf nodes (childless, truthy node_slug) under the
brand root, each with its root-to-leaf label path. -/
def getBrandLeaves (tax : List JNode) (brandName : String) : List (JNode × List String) :=
  if tax.isEmpty || brandName = "" then []
  else
    match findBrandRootNorm tax brandName with
    | none => []
    | some root => leavesWalk [] root

/-- The allowed whitelist the handler builds for the classification
service: slug and label pairs of the brand leaves, entries with a falsy
slug dropped. -/
def allowedLeavesFor (tax : List JNode) (brandName : String) : List (String × String) :=
  ((getBrandLeaves tax brandName).map
    (fun x => (slugOf x.1, String.intercalate " → " x.2))).filter
    (fun x => strTruthy x.1)

/-- Slugs of the whitelist supplied to the classification service. -/
def allowedSlugs (tax : List JNode) (brandName : String) : List String :=
  (allowedLeavesFor tax brandName).map (fun x => x.1)

/-- getTaxonomyBranchNodesFromLeaf: full branch, root to node, of the
first node whose normalized name equals the normalized leaf name. -/
def getTaxonomyBranchNodesFromLeaf (tax : List JNode) (leafName : String) : List JNode :=
  if tax.isEmpty then []
  else
    let want := normalizeForMatch leafName
    (findPathByList (fun n => normalizeForMatch (nameOf n) == want) [] tax).getD []

/-! ### Taxonomy loader

loadTaxonomia parses taxonomia.json.  The parsed JSON document is
modelled as either a malformed document (JSON.parse throws), an array of
nodes, or a single object; a single object carries both the tree-shaped
fields and the optional BRANDS and TEMPLATE fields, and the loader
routes on the presence of children, name or title. -/

structure TaxoRawObj where
  node : JNode
  BRANDS : Option (List String)
  TEMPLATE : Option JNode

inductive TaxoRaw where
  | malformed
  | arr (nodes : List JNode)
  | obj (o : TaxoRawObj)

/-- ensureName on the name and title fields: copy title into a missing
name. -/
def ensureNameStr (nm tl : String) : String :=
  if nm = "" ∧ tl ≠ "" then tl else nm

/-- ensureName: copy title into a missing name. -/
def ensureName (n : JNode) : JNode :=
  match n with
  | JNode.mk nm tl ns sl fc cs => JNode.mk (ensureNameStr nm tl) tl ns sl fc cs

mutual
/-- The fix pass of the pre-expanded tree case: ensure a name on every
node and force children to an array. -/
def fixNode : JNode → JNode
  | JNode.mk nm tl ns sl fc none => JNode.mk (ensureNameStr nm tl) tl ns sl fc (some [])
  | JNode.mk nm tl ns sl fc (some cs) =>
    JNode.mk (ensureNameStr nm tl) tl ns sl fc (some (fixNodeList cs))

def fixNodeList : List JNode → List JNode
  | [] => []
  | c :: rest => fixNode c :: fixNodeList rest
end

/-- The brand placeholder token of the template format. -/
def brandToken : String := "\x7b\x7bBRAND\x7d\x7d"

/-- replaceBrandTokens: substitute the placeholder everywhere in a
string. -/
def replaceBrandTokens (brand s : String) : String := replaceAllStr s brandToken brand

/-- The comma-split normalization of a string-valued facets field. -/
def facetsSplit (s : String) : List String :=
  ((s.splitOn ",").map jsTrim).filter strTruthy

/-- Name resolution of the walk of expandBrand: after ensureName, the
name-or-title-or-brand chain with the brand token substituted. -/
def walkName (brand nm tl : String) : String :=
  replaceBrandTokens brand (jsOr (jsOr (ensureNameStr nm tl) tl) brand)

/-- node_slug compatibility step of the walk: copy a truthy legacy slug
field into an undefined node_slug. -/
def walkSlug (ns sl : Option String) : Option String :=
  match ns, sl with
  | none, some s => if s ≠ "" then some s else none
  | x, _ => x

/-- Facets normalization of the walk: a truthy comma-separated string
becomes a list. -/
def walkFacets (fc : Option FacetRaw) : Option FacetRaw :=
  match fc with
  | some (FacetRaw.str s) =>
    if s ≠ "" then some (FacetRaw.arr (facetsSplit s)) else some (FacetRaw.str s)
  | other => other

mutual
/-- The walk of expandBrand: resolve the name, substitute the brand
token, copy a legacy slug field into node_slug, normalize string facets
to a list, recurse into children. -/
def walkBrand (brand : String) : JNode → JNode
  | JNode.mk nm tl ns sl fc none =>
    JNode.mk (walkName brand nm tl) tl (walkSlug ns sl) sl (walkFacets fc) (some [])
  | JNode.mk nm tl ns sl fc (some cs) =>
    JNode.mk (walkName brand nm tl) tl (walkSlug ns sl) sl (walkFacets fc)
      (some (walkBrandList brand cs))

def walkBrandList (brand : String) : List JNode → List JNode
  | [] => []
  | c :: rest => walkBrand brand c :: walkBrandList brand rest
end

/-- expandBrand: clone the template into a root for one brand.  The
synthetic root passed to the walk carries the template title (or the
bare placeholder), the template children, node_slug and facets. -/
def expandBrand (tpl : JNode) (brand : String) : JNode :=
  walkBrand brand
    (JNode.mk (jsOr tpl.title brandToken) "" tpl.node_slug none tpl.facets
      (some (childrenOf tpl)))

/-- Routing test of the loader: a document that is an array, or has
children, a name or a title, is a pre-expanded tree. -/
def isPreExpandedObj (o : TaxoRawObj) : Bool :=
  (o.node.children).isSome || o.node.name ≠ "" || o.node.title ≠ ""

/-- The body of the try block of loadTaxonomia: parse and expand, or
throw. -/
def parseTaxonomia : TaxoRaw → Except String (List JNode)
  | TaxoRaw.malformed => Except.error "JSON.parse failed"
  | TaxoRaw.arr nodes => Except.ok (fixNodeList nodes)
  | TaxoRaw.obj o =>
    if isPreExpandedObj o then Except.ok (fixNodeList [o.node])
    else
      let brands := (o.BRANDS).getD []
      match o.TEMPLATE with
      | none => Except.error "taxonomia.json: unsupported format"
      | some tpl =>
        if brands.isEmpty then Except.error "taxonomia.json: unsupported format"
        else Except.ok (brands.map (expandBrand tpl))

/-- loadTaxonomia: any parse or expansion failure is caught and yields
the empty forest. -/
def loadTaxonomia (raw : TaxoRaw) : List JNode :=
  match parseTaxonomia raw with
  | Except.ok t => t
  | Except.error _ => []

/-! ### Product, webhook body and generative-service output -/

structure POpt where
  optId : String
  name : String
  position : Nat
  values : List String
deriving DecidableEq

structure Variant where
  varId : String
  selectedOptions : List (String × String)
deriving DecidableEq

structure Product where
  prodId : String
  title : String
  vendor : String
  descriptionHtml : String
  tags : List String
  options : List POpt
  variants : List Variant
  metafields : List (String × String)
deriving DecidableEq

/-- The webhook body: the numeric product id, and the optional tag
lists the tag fallback reads. -/
structure Body where
  numId : Nat
  tags : Option (List String)
  productTags : Option (List String)
deriving DecidableEq

/-- One entry of the options array of the rewrite response.  A missing
name reads as the empty string (the source only tests it for
truthiness); position and values keep the undefined distinction. -/
structure AIOpt where
  name : String
  position : Option Nat
  values : Option (List String)
deriving DecidableEq

/-- The rewrite response of the generative service. -/
structure RewriteOut where
  title : String
  description : String
  base_tags : Option (List String)
  subtags : Option (List String)
  extra_tags : Option (List String)
  collections : Option (List String)
  options : Option (List AIOpt)
deriving DecidableEq

/-- The classification response: the collections_node_slugs field when
it is an array, none otherwise. -/
abbrev ClsResp : Type := Option (List String)

/-! ### Brand detection and classification fall-backs -/

/-- The fixed brand keyword table, in source iteration order. -/
def brandMap : List (String × String) :=
  [("audi", "AUDI"), ("bmw", "BMW"), ("mercedes-benz", "MERCEDES-BENZ"),
   ("mercedes", "MERCEDES-BENZ"), ("škoda", "ŠKODA"), ("skoda", "ŠKODA"),
   ("volkswagen", "VOLKSWAGEN"), ("vw", "VOLKSWAGEN"), ("seat", "SEAT"),
   ("peugeot", "PEUGEOT"), ("citroen", "CITROEN"), ("renault", "RENAULT"),
   ("ford", "FORD"), ("toyota", "TOYOTA"), ("honda", "HONDA"),
   ("hyundai", "HYUNDAI"), ("kia", "KIA"), ("mazda", "MAZDA"), ("opel", "OPEL"),
   ("nissan", "NISSAN"), ("fiat", "FIAT"), ("volvo", "VOLVO"), ("mini", "MINI"),
   ("porsche", "PORSCHE"), ("tesla", "TESLA"), ("dacia", "DACIA")]

/-- detectBrandFromProduct: lower-case and join vendor, title, tags and
the AI base and sub tags, then return the canonical label of the first
table keyword occurring as a substring. -/
def detectBrandFromProduct (p : Product) (out : RewriteOut) : Option String :=
  let hay := String.intercalate " "
    ((([p.vendor, p.title] ++ p.tags ++ (out.base_tags).getD [] ++
      (out.subtags).getD []).filter strTruthy).map jsLower)
  ((brandMap.find? (fun kv => containsSub hay kv.1)).map (fun kv => kv.2))

/-- The slug picks taken from the classification response: the field
when it is an array, with falsy entries dropped. -/
def aiSlugPicks (cls : Except Unit ClsResp) : List String :=
  match cls with
  | Except.ok (some l) => l.filter strTruthy
  | Except.ok none => []
  | Except.error _ => []

/-- The brand list of the tag fallback deriveLeafFromTags. -/
def fallbackBrands : List String :=
  ["audi", "bmw", "mercedes-benz", "mercedes", "škoda", "skoda", "volkswagen", "vw"]

/-- Brand canonicalization of the tag fallback. -/
def fallbackBrandFix (b : String) : String :=
  let B := jsUpper b
  if B = "SKODA" then "ŠKODA"
  else if B = "VW" then "VOLKSWAGEN"
  else if B = "MERCEDES" then "MERCEDES-BENZ"
  else B

/-- deriveLeafFromTags: find a brand tag, then map keyword heuristics to
a leaf name under the canonical brand. -/
def deriveLeafFromTags (tags : List String) : Option String :=
  let t := tags.map jsLower
  match fallbackBrands.find? (fun b => t.contains b) with
  | none => none
  | some brand =>
    let B := fallbackBrandFix brand
    if t.any (fun x => containsSub x "platnicky" || containsSub x "platnícky") then
      some (B ++ " Brzdové platničky")
    else if t.any (fun x => containsSub x "kotuc" || containsSub x "kotúc") then
      some (B ++ " Brzdový kotúč")
    else if t.contains "brzdy" then some (B ++ " Brzdy")
    else if t.contains "pneumatiky" then some (B ++ " Pneumatiky")
    else if t.contains "olej" then some (B ++ " Olej")
    else if t.any (fun x => containsSub x "interier" || containsSub x "interiér") then
      some (B ++ " Interiér")
    else if t.any (fun x => containsSub x "exterier" || containsSub x "exteriér") then
      some (B ++ " Exteriér")
    else if t.contains "komponenty" then some (B ++ " Komponenty")
    else some (B ++ " Komponenty")

/-- The category names of the tag-derivation step. -/
def categoriesList : List String :=
  ["Interiér", "Exteriér", "Komponenty", "Brzdy", "Pneumatiky", "Olej",
   "Doplnky", "Oblečenie", "Starostlivosť o auto", "Vychytávky"]

/-- The test of the regex of one latin letter, case-insensitive. -/
def hasLatinLetter (s : String) : Bool :=
  s.data.any (fun c => ('a' ≤ c ∧ c ≤ 'z') ∨ ('A' ≤ c ∧ c ≤ 'Z'))

/-- Set-insertion order preserving deduplication, as collecting into a
JavaScript Set and spreading back to an array. -/
def dedupKeepOrder (l : List String) : List String :=
  l.foldl (fun acc s => if acc.contains s then acc else acc ++ [s]) []

/-- The brand list of the universal/multi-brand guard. -/
def guardBrandsList : List String :=
  ["audi", "bmw", "mercedes-benz", "mercedes", "škoda", "skoda", "volkswagen",
   "vw", "seat", "peugeot", "citroen", "renault", "ford", "toyota", "honda",
   "hyundai", "kia", "mazda", "opel", "nissan", "fiat", "volvo", "mini",
   "porsche", "tesla", "dacia"]

/-- The uppercase letter class of the brand-collection regex of the
guard. -/
def upperClassChar (c : Char) : Bool :=
  ('A' ≤ c ∧ c ≤ 'Z') || c ∈ ['Á', 'Č', 'Ď', 'É', 'Í', 'Ĺ', 'Ľ', 'Ň', 'Ó', 'Ô', 'Ŕ', 'Š', 'Ť', 'Ú', 'Ý', 'Ž']

/-- The test of the regex of a leading run of uppercase letters followed
by a whitespace character, used by the guard to drop brand-prefixed
collections. -/
def startsWithUpperWord (s : String) : Bool :=
  let run := s.data.takeWhile upperClassChar
  decide (1 ≤ run.length) && (match s.data.drop run.length with
    | c :: _ => isJsSpace c
    | [] => false)

/-- The tag list the tag fallback reads from the webhook body. -/
def bodyFallbackTags (body : Body) : List String :=
  match body.tags with
  | some t => t
  | none => (body.productTags).getD []

/-- First fallback: when the rewrite output has no collections, derive a
leaf from the body tags and keep it when the taxonomy validates it. -/
def collectionsAfterTagFallback (tax : List JNode) (body : Body)
    (cols : Option (List String)) : Option (List String) :=
  if cols.getD [] = [] then
    match deriveLeafFromTags (bodyFallbackTags body) with
    | some guess =>
      if !(getTaxonomyBranchNodesFromLeaf tax guess).isEmpty then some [guess] else cols
    | none => cols
  else cols

/-- Second fallback: when still empty, derive candidates from the AI
subtags and from brand-and-category pairs of the base tags, keeping
those the taxonomy validates. -/
def collectionsAfterAiTags (tax : List JNode) (out : RewriteOut)
    (cols : Option (List String)) : Option (List String) :=
  if cols.getD [] = [] then
    let sub := (out.subtags).getD []
    let base := (out.base_tags).getD []
    let fromSub := (sub.map jsTrim).filter
      (fun leaf => strTruthy leaf && !(getTaxonomyBranchNodesFromLeaf tax leaf).isEmpty)
    let brands := base.filter (fun b => hasLatinLetter b && ¬categoriesList.contains b)
    let cats := base.filter (fun c => categoriesList.contains c)
    let fromCombos := (brands.flatMap (fun b => cats.map (fun c => jsTrim (b ++ " " ++ c)))).filter
      (fun leaf => !(getTaxonomyBranchNodesFromLeaf tax leaf).isEmpty)
    let cands := dedupKeepOrder (fromSub ++ fromCombos)
    if cands ≠ [] then some cands else cols
  else cols

/-- The universal/multi-brand guard inputs: normalized tags of the
product and of the AI base and sub tags. -/
def allTagsNow (p : Product) (out : RewriteOut) : List String :=
  (p.tags ++ (out.base_tags).getD [] ++ (out.subtags).getD []).map normTag

/-- Number of distinct guard brands present among the normalized tags.
The guard brand list holds no duplicate strings, so the size of the
JavaScript Set equals the length of the filtered list. -/
def brandHitsCount (p : Product) (out : RewriteOut) : Nat :=
  (guardBrandsList.filter (fun b => (allTagsNow p out).contains (normTag b))).length

def isUniversalTagged (p : Product) (out : RewriteOut) : Bool :=
  (allTagsNow p out).contains (normTag "Univerzálny")

/-- The universal/multi-brand guard: when the product is universal or
not exactly one brand is tagged, brand-prefixed collections (leading
uppercase word) are dropped. -/
def collectionsAfterGuard (p : Product) (out : RewriteOut)
    (cols : Option (List String)) : Option (List String) :=
  if isUniversalTagged p out || brandHitsCount p out ≠ 1 then
    some ((cols.getD []).filter (fun c => ¬startsWithUpperWord c))
  else cols

/-- Final safety filter: keep only collections whose trimmed name
resolves to a taxonomy branch. -/
def collectionsAfterSafety (tax : List JNode)
    (cols : Option (List String)) : Option (List String) :=
  match cols with
  | some l => some (l.filter (fun c => !(getTaxonomyBranchNodesFromLeaf tax (jsTrim c)).isEmpty))
  | none => none

/-- Joint result of the classification section of the handler. -/
structure ClassifyResult where
  detectedBrand : Option String
  slugPicks : List String
  collectionsFinal : Option (List String)
deriving DecidableEq

/-- The classification section of the handler, lines 812 to 936 of
src/api/shopify-webhook.js: brand detection, the slug-only
classification (skipped without a brand), the tag fallback, the AI-tag
derivation, the universal/multi-brand guard, and the final taxonomy
safety filter on the name-based collections. -/
def classifyStage (tax : List JNode) (p : Product) (out : RewriteOut)
    (cls : Except Unit ClsResp) (body : Body) : ClassifyResult :=
  let detectedBrand := detectBrandFromProduct p out
  let slugPicks := match detectedBrand with
    | some _ => aiSlugPicks cls
    | none => []
  let c1 := collectionsAfterTagFallback tax body out.collections
  let c2 := collectionsAfterAiTags tax out c1
  let c3 := collectionsAfterGuard p out c2
  let c4 := collectionsAfterSafety tax c3
  { detectedBrand := detectedBrand, slugPicks := slugPicks, collectionsFinal := c4 }

/-! ### Remote catalog store model

The catalog platform is modelled as an explicit state: custom
collections (id, title, optional image), a fresh-id counter, the file
library, and the collect (product times collection) membership records.
The store rejects a duplicate collect with status 422 and the message
the source's regex looks for, which is exactly the behaviour the
source's comment documents.  Write calls are recorded as effects. -/

structure Coll where
  collId : Nat
  title : String
  image : Option String
deriving DecidableEq

structure FileEntry where
  filename : String
  url : String
deriving DecidableEq

structure Store where
  colls : List Coll
  nextId : Nat
  files : List FileEntry
  collects : List (Nat × Nat)
deriving DecidableEq

inductive Effect where
  | productUpdate (prodId title descr : String) (tags : List String)
  | optionsUpdate (numericProductId : Nat) (payload : List (Option String × String × Nat))
  | variantUpdate (variantId : String) (o1 o2 o3 : Option String)
  | createCollection (title : String)
  | setCollectionImage (collId : Nat) (src : String)
  | upsertCollectionMetafield (collId : Nat) (ns key typ value : String)
  | createCollectCall (productId collectionId : Nat)
  | setProcessed (ownerId : String)
deriving DecidableEq

/-- restFindCustomCollectionByTitle: exact normalized match first, then
a normalized startsWith fallback. -/
def restFindCustomCollectionByTitle (store : Store) (title : String) : Option Coll :=
  let want := normalizeForMatch title
  match store.colls.find? (fun c => normalizeForMatch c.title == want) with
  | some c => some c
  | none => store.colls.find? (fun c => jsStartsWith (normalizeForMatch c.title) want)

/-- restCreateCustomCollection: create a collection with the given
title and a fresh id. -/
def restCreateCustomCollection (store : Store) (title : String) :
    Coll × Store × List Effect :=
  let c : Coll := { collId := store.nextId, title := title, image := none }
  (c, { store with colls := store.colls ++ [c], nextId := store.nextId + 1 },
   [Effect.createCollection title])

/-- restEnsureCustomCollection: find by title or create. -/
def restEnsureCustomCollection (store : Store) (title : String) :
    Coll × Store × List Effect :=
  match restFindCustomCollectionByTitle store title with
  | some c => (c, store, [])
  | none => restCreateCustomCollection store title

/-- restGetCustomCollection by id. -/
def restGetCustomCollection (store : Store) (cid : Nat) : Option Coll :=
  store.colls.find? (fun c => c.collId == cid)

/-- restSearchFilesByFilename followed by the caller's exact
case-insensitive filename match, as in findImageUrlForNodeSlug. -/
def fileHitUrl (files : List FileEntry) (name : String) : Option String :=
  (files.find? (fun f => jsLower f.filename == jsLower name)).map (fun f => f.url)

/-- findImageUrlForNodeSlug: try slug-derived candidate filenames, then
the default ones, first hit wins. -/
def findImageUrlForNodeSlug (files : List FileEntry) (node_slug : Option String) :
    Option String :=
  let slugCands :=
    match node_slug with
    | some s => if s ≠ "" then [s ++ ".png", s ++ ".jpg", s ++ ".jpeg", s ++ ".webp"] else []
    | none => []
  let cands := slugCands ++ ["default.png", "default.jpg", "default.jpeg", "default.webp"]
  (cands.map (fileHitUrl files)).foldr (fun x acc => match x with
    | some u => some u
    | none => acc) none

/-- Set a collection image in the store. -/
def storeSetImage (store : Store) (cid : Nat) (src : String) : Store :=
  { store with colls := store.colls.map (fun c =>
      if c.collId == cid then { c with image := some src } else c) }

/-- An ensured branch node: collection id plus the taxonomy structure
metadata the handler writes back. -/
structure Ensured where
  ensId : Nat
  title : String
  node_slug : Option String
  facets : Option FacetRaw
  level : Nat
  parentId : Option Nat
  childId : Option Nat
deriving DecidableEq

instance : Inhabited Ensured :=
  ⟨{ ensId := 0, title := "", node_slug := none, facets := none, level := 0,
     parentId := none, childId := none }⟩

/-- JavaScript truthiness of an optional numeric id (null and 0 are
falsy). -/
def natIdTruthy : Option Nat → Bool
  | some n => n ≠ 0
  | none => false

/-- setCollectionTaxonomyFields: the metafield writes for one ensured
node. -/
def taxonomyFieldEffects (n : Ensured) : List Effect :=
  [Effect.upsertCollectionMetafield n.ensId "taxonomy" "level" "number_integer" (toString n.level)]
  ++ (match n.parentId with
      | some pid => if pid ≠ 0 then
          [Effect.upsertCollectionMetafield n.ensId "taxonomy" "parent" "number_integer" (toString pid)]
        else []
      | none => [])
  ++ [Effect.upsertCollectionMetafield n.ensId "taxonomy" "children" "json"
       (match n.childId with
        | some cid => "[" ++ toString cid ++ "]"
        | none => "[]")]
  ++ (match n.node_slug with
      | some s => if s ≠ "" then
          [Effect.upsertCollectionMetafield n.ensId "taxonomy" "node_slug" "single_line_text_field" s]
        else []
      | none => [])
  ++ (match n.facets with
      | some (FacetRaw.arr items) => if !items.isEmpty then
          [Effect.upsertCollectionMetafield n.ensId "taxonomy" "facets" "list.single_line_text_field"
            ("[" ++ String.intercalate "," (items.map (fun s => "\"" ++ s ++ "\"")) ++ "]")]
        else []
      | _ => [])

/-- The image-assignment step of ensureBranchAndTaxonomy for one
collection: only when the collection has no image yet, resolve a
candidate file by the node slug convention and set it. -/
def assignImageStep (store : Store) (coll : Coll) (node : JNode) : Store × List Effect :=
  match (restGetCustomCollection store coll.collId).bind (fun c => c.image) with
  | some _ => (store, [])
  | none =>
    match findImageUrlForNodeSlug store.files node.node_slug with
    | some url => (storeSetImage store coll.collId url,
        [Effect.setCollectionImage coll.collId url])
    | none => (store, [])

/-- The first pass of ensureBranchAndTaxonomy for one node: ensure the
collection, assign an image once if absent, and record the ensured node
with its level. -/
def ensureOneNode (store : Store) (node : JNode) (level : Nat) :
    Ensured × Store × List Effect :=
  let title := nameOf node
  let r := restEnsureCustomCollection store title
  let img := assignImageStep r.2.1 r.1 node
  ({ ensId := r.1.collId, title := title, node_slug := node.node_slug,
     facets := node.facets, level := level, parentId := none, childId := none },
   img.1, r.2.2 ++ img.2)

/-- First pass over the whole branch, carrying the index as level. -/
def ensureBranchPass (store : Store) (level : Nat) :
    List JNode → List Ensured × Store × List Effect
  | [] => ([], store, [])
  | node :: rest =>
    let r1 := ensureOneNode store node level
    let r2 := ensureBranchPass r1.2.1 (level + 1) rest
    (r1.1 :: r2.1, r2.2.1, r1.2.2 ++ r2.2.2)

/-- Second pass of ensureBranchAndTaxonomy: link each ensured node to
its immediate predecessor and successor within this branch. -/
def linkBranch (all : List Ensured) : List Ensured :=
  (List.range all.length).map (fun i =>
    let e := (all[i]?).getD default
    { e with
      parentId := if i > 0 then ((all[i - 1]?).map (fun x => x.ensId)) else none
      childId := if i + 1 < all.length then ((all[i + 1]?).map (fun x => x.ensId)) else none })

/-- ensureBranchAndTaxonomy: ensure every collection of the branch with
images, link the linear chain, and write the taxonomy metafields. -/
def ensureBranchAndTaxonomy (store : Store) (branchNodes : List JNode) :
    List Ensured × Store × List Effect :=
  let r := ensureBranchPass store 0 branchNodes
  let linked := linkBranch r.1
  (linked, r.2.1, r.2.2 ++ linked.flatMap taxonomyFieldEffects)

/-- Outcome of one REST call against the collects endpoint. -/
inductive CollectResult where
  | created (productId collectionId : Nat)
  | alreadyExists
deriving DecidableEq

/-- The store side of a POST to the collects endpoint: status, response
text, and the new store state.  A duplicate pair is rejected with 422
and the message the platform reports. -/
def collectsEndpointPost (store : Store) (pid cid : Nat) : (Nat × String) × Store :=
  if store.collects.contains (pid, cid) then
    ((422, "collection_id: has already been taken"), store)
  else
    ((201, "created"), { store with collects := store.collects ++ [(pid, cid)] })

/-- The already-collected test of restCreateCollect, the regex of
already, exists, or has already been taken, case-insensitive. -/
def alreadyExistsText (t : String) : Bool :=
  containsSub (jsLower t) "already" || containsSub (jsLower t) "exists" ||
    containsSub (jsLower t) "has already been taken"

/-- restCreateCollect: issue the POST; treat a 422 whose body reports an
existing membership as success (returning null), any other non-ok
status as an error. -/
def restCreateCollect (store : Store) (pid cid : Nat) :
    Except String (Option CollectResult) × Store × List Effect :=
  let ((status, text), store1) := collectsEndpointPost store pid cid
  let eff := [Effect.createCollectCall pid cid]
  if status == 422 && alreadyExistsText text then (Except.ok none, store1, eff)
  else if 200 ≤ status ∧ status < 300 then
    (Except.ok (some (CollectResult.created pid cid)), store1, eff)
  else (Except.error ("REST create collect failed: " ++ toString status), store1, eff)

/-! ### Variant option remapper

The handler builds a map of new value lists keyed by 1-based position,
then recomputes option1, option2, option3 of every variant: the old
value's first index in the original value list selects the replacement
at the same index when it exists, otherwise the value passes through
unchanged. -/

/-- A position-keyed map, as a JavaScript Map: set replaces an existing
key, get returns the last value set. -/
def posMapSet (m : List (Nat × List String)) (k : Nat) (v : List String) :
    List (Nat × List String) :=
  if m.any (fun kv => kv.1 == k) then
    m.map (fun kv => if kv.1 == k then (k, v) else kv)
  else m ++ [(k, v)]

def posMapGet (m : List (Nat × List String)) (k : Nat) : Option (List String) :=
  (m.find? (fun kv => kv.1 == k)).map (fun kv => kv.2)

/-- newValuesByPos: entries of the rewrite's options that carry a values
array, keyed by their declared position or their 1-based index. -/
def newValuesByPos (aiOptions : List AIOpt) : List (Nat × List String) :=
  (aiOptions.enum.foldl (fun m oi =>
    match oi.2.values with
    | some vals => posMapSet m ((oi.2.position).getD (oi.1 + 1)) vals
    | none => m) [])

/-- byName: last-wins lookup of an option by name together with its
index, as building an object from entries (a later entry with the same
key overwrites an earlier one). -/
def byNameLookupGo (idx : Nat) (name : String) : List POpt → Option (Nat × POpt)
  | [] => none
  | o :: rest =>
    match byNameLookupGo (idx + 1) name rest with
    | some r => some r
    | none => if o.name == name then some (idx, o) else none

def byNameLookup (pOptions : List POpt) (name : String) : Option (Nat × POpt) :=
  byNameLookupGo 0 name pOptions

/-- posByName followed by the or-zero fallback: 1-based index of the
option with this name, 0 when the name is unknown. -/
def posOfName (pOptions : List POpt) (name : String) : Nat :=
  match byNameLookup pOptions name with
  | some (idx, _) => idx + 1
  | none => 0

/-- The per-value translation: substitute the replacement at the old
value's first index when the replacement list has an entry there. -/
def mapValue (oldValues : List String) (newList : Option (List String)) (v : String) : String :=
  match newList with
  | none => v
  | some nl =>
    match oldValues.findIdx? (fun x => x == v) with
    | some i =>
      match nl.get? i with
      | some w => w
      | none => v
    | none => v

/-- One selected option folded into the new option1, option2, option3
triple: only positions 1, 2 and 3 assign. -/
def stepTriple (pOptions : List POpt) (m : List (Nat × List String))
    (acc : Option String × Option String × Option String) (so : String × String) :
    Option String × Option String × Option String :=
  let pos := posOfName pOptions so.1
  let oldValues := match byNameLookup pOptions so.1 with
    | some (_, opt) => opt.values
    | none => []
  let newVal := mapValue oldValues (posMapGet m pos) so.2
  if pos = 1 then (some newVal, acc.2.1, acc.2.2)
  else if pos = 2 then (acc.1, some newVal, acc.2.2)
  else if pos = 3 then (acc.1, acc.2.1, some newVal)
  else acc

/-- The new option triple of one variant. -/
def computeTriple (pOptions : List POpt) (m : List (Nat × List String))
    (sos : List (String × String)) : Option String × Option String × Option String :=
  sos.foldl (stepTriple pOptions m) (none, none, none)

/-- gidToNumeric: last segment of a gid. -/
def gidToNumeric (gid : String) : String :=
  ((gid.splitOn "/").getLast?).getD ""

/-- The REST variant update payload: the id plus exactly the defined
members of the triple. -/
structure VariantPayload where
  variantId : String
  option1 : Option String
  option2 : Option String
  option3 : Option String
deriving DecidableEq

def restUpdateVariantOptionsPayload (variantGid : String)
    (t : Option String × Option String × Option String) : VariantPayload :=
  { variantId := gidToNumeric variantGid, option1 := t.1, option2 := t.2.1, option3 := t.2.2 }

/-! ### The handler -/

/-- The anti-loop test: a processed metafield with value true. -/
def processedFlag (p : Product) : Bool :=
  p.metafields.any (fun kv => kv.1 == "processed" && kv.2 == "true")

/-- optionNames: named entries of the rewrite's options with their
declared or 1-based position (index within the filtered list). -/
def optionNamesOf (out : RewriteOut) : List (String × Nat) :=
  (((out.options).getD []).filter (fun o => strTruthy o.name)).enum.map
    (fun oi => (oi.2.name, (oi.2.position).getD (oi.1 + 1)))

/-- restUpdateProductOptions payload: each new option name matched to an
existing option id by position. -/
def restUpdateProductOptionsPayload (optionNames : List (String × Nat))
    (existing : List POpt) : List (Option String × String × Nat) :=
  optionNames.map (fun o =>
    ((existing.find? (fun e => e.position == o.2)).map (fun e => e.optId), o.1, o.2))

/-- The attach loop body shared by both attach modes: ensure the branch
and create a collect for every ensured node. -/
def attachBranch (store : Store) (pid : Nat) (branchNodes : List JNode) :
    Store × List Effect :=
  let (ensured, store1, eff1) := ensureBranchAndTaxonomy store branchNodes
  let (store2, eff2) := ensured.foldl (fun acc n =>
    let (_, st, eff) := restCreateCollect acc.1 pid n.ensId
    (st, acc.2 ++ eff)) (store1, [])
  (store2, eff1 ++ eff2)

/-- The slug-pick attach loop: for every pick that resolves to a branch
under the brand root, ensure the branch and attach. -/
def attachBySlugPicks (tax : List JNode) (brand : String) (picks : List String)
    (pid : Nat) (store : Store) : Store × List Effect :=
  picks.foldl (fun acc slug =>
    let branchNodes := getBranchBySlug tax brand slug
    if branchNodes.isEmpty then acc
    else
      let (st, eff) := attachBranch acc.1 pid branchNodes
      (st, acc.2 ++ eff)) (store, [])

/-- The name-based fallback attach loop: for every trimmed collection
name that resolves to a taxonomy branch, ensure the branch and attach. -/
def attachByNames (tax : List JNode) (cols : List String) (pid : Nat) (store : Store) :
    Store × List Effect :=
  cols.foldl (fun acc c =>
    let leafTitle := jsTrim c
    if leafTitle = "" then acc
    else
      let branchNodes := getTaxonomyBranchNodesFromLeaf tax leafTitle
      if branchNodes.isEmpty then acc
      else
        let (st, eff) := attachBranch acc.1 pid branchNodes
        (st, acc.2 ++ eff)) (store, [])

/-- The collections section of the handler, lines 1020 to 1056: prefer
slug picks under the detected brand, fall back to name-based
collections, else attach nothing.  Unresolvable slugs and names are
skipped. -/
def attachStage (tax : List JNode) (cr : ClassifyResult) (pid : Nat) (store : Store) :
    Store × List Effect :=
  match cr.detectedBrand with
  | some brand =>
    if !cr.slugPicks.isEmpty then attachBySlugPicks tax brand cr.slugPicks pid store
    else
      match cr.collectionsFinal with
      | some cols => if !cols.isEmpty then attachByNames tax cols pid store else (store, [])
      | none => (store, [])
  | none =>
    match cr.collectionsFinal with
    | some cols => if !cols.isEmpty then attachByNames tax cols pid store else (store, [])
    | none => (store, [])

/-- The handler's HTTP response. -/
structure HResult where
  status : Nat
  message : String
  effects : List Effect
  store : Store
deriving DecidableEq

/-- The handler of src/api/shopify-webhook.js after HMAC verification:
product polling, the anti-loop short circuit, the rewrite call
(supplied as an input), classification, the product and option updates,
the variant remap, the collection attach, and the final processed
flag.  Write calls are recorded in order in the effect trace. -/
def handlerModel (tax : List JNode) (body : Body) (pReady : Option Product)
    (out : RewriteOut) (cls : Except Unit ClsResp) (store : Store) : HResult :=
  match pReady with
  | none => { status := 202, message := "Product not ready yet", effects := [], store := store }
  | some p =>
    if processedFlag p then
      { status := 200, message := "Already processed", effects := [], store := store }
    else
      let cr := classifyStage tax p out cls body
      let tags := (out.base_tags).getD [] ++ (out.subtags).getD [] ++ (out.extra_tags).getD []
      let optionNames := optionNamesOf out
      let eff1 := [Effect.productUpdate p.prodId out.title out.description tags]
      let eff2 :=
        if !optionNames.isEmpty then
          [Effect.optionsUpdate body.numId (restUpdateProductOptionsPayload optionNames p.options)]
        else []
      let m := newValuesByPos ((out.options).getD [])
      let eff3 := p.variants.map (fun v =>
        let t := computeTriple p.options m v.selectedOptions
        Effect.variantUpdate (gidToNumeric v.varId) t.1 t.2.1 t.2.2)
      let att := attachStage tax cr body.numId store
      { status := 200, message := "OK",
        effects := eff1 ++ eff2 ++ eff3 ++ att.2 ++ [Effect.setProcessed p.prodId],
        store := att.1 }

/-- The slug picks the attach loop goes on to use, lines 1021 to 1029:
the picks of the classification response (falsy entries dropped) that
resolve to a branch under the detected brand; unresolvable picks are
skipped with a warning. -/
def usedSlugPicks (tax : List JNode) (brand : String) (cls : Except Unit ClsResp) :
    List String :=
  (aiSlugPicks cls).filter (fun s => !(getBranchBySlug tax brand s).isEmpty)

/-! ### Concrete fixtures for the witnesses and counterexamples -/

/-- A small well-formed taxonomy: one brand root with one slugged leaf. -/
def taxT : List JNode :=
  [JNode.mk "AUDI" "" none none none (some
    [JNode.mk "AUDI Exteriér" "" (some "audi-exterier") none none (some [])])]

/-- A taxonomy in which an inner node carries a node_slug: diely is a
slugged node with a child, brzdy its slugged leaf. -/
def taxC1 : List JNode :=
  [JNode.mk "AUDI" "" none none none (some
    [JNode.mk "AUDI Diely" "" (some "diely") none none (some
      [JNode.mk "AUDI Brzdy" "" (some "brzdy") none none (some [])])])]

/-- An empty remote store. -/
def store0 : Store := { colls := [], nextId := 1, files := [], collects := [] }

/-- A store already holding a collection titled AUDI Exteriér. -/
def storeC5 : Store :=
  { colls := [{ collId := 1, title := "AUDI Exteriér", image := some "cdn://audi-exterier.png" }],
    nextId := 2, files := [], collects := [] }

/-- Branch node fixtures for the ensurer. -/
def nodeA : JNode := JNode.mk "AUDI" "" none none none (some [])

def nodeB : JNode := JNode.mk "AUDI Exteriér" "" (some "audi-exterier") none none (some [])

/-- A product without any brand signal. -/
def pC4 : Product :=
  { prodId := "gid://shopify/Product/77", title := "Zástera do dielne",
    vendor := "Obchodík", descriptionHtml := "", tags := [], options := [],
    variants := [], metafields := [] }

/-- A rewrite output carrying a name-based collection request while no
brand is detectable from the product and tags. -/
def outC4 : RewriteOut :=
  { title := "Zástera do dielne", description := "",
    base_tags := some [], subtags := some [], extra_tags := some [],
    collections := some ["Audi Exteriér"], options := some [] }

/-- A rewrite output with no collections at all. -/
def outEmpty : RewriteOut :=
  { title := "Produkt", description := "", base_tags := some [], subtags := some [],
    extra_tags := some [], collections := none, options := some [] }

def bodyC4 : Body := { numId := 77, tags := none, productTags := none }

/-- A product with a brand signal in the vendor field. -/
def pAudi : Product :=
  { prodId := "gid://shopify/Product/88", title := "Kryt kľúča", vendor := "Audi",
    descriptionHtml := "", tags := [], options := [], variants := [], metafields := [] }

def bodyAudi : Body := { numId := 88, tags := none, productTags := none }

/-- A product already carrying the processed flag. -/
def pProcessed : Product :=
  { prodId := "gid://shopify/Product/99", title := "Hotový produkt", vendor := "Audi",
    descriptionHtml := "", tags := [], options := [], variants := [],
    metafields := [("processed", "true")] }

def bodyProcessed : Body := { numId := 99, tags := none, productTags := none }

/-- The option list of the variant remap examples: original values
Black and White at position one. -/
def pOptsC3 : List POpt :=
  [{ optId := "opt1", name := "Color", position := 1, values := ["Black", "White"] }]

/-- Full replacement list for the remap round trip. -/
def aiFull : AIOpt := { name := "Farba", position := some 1, values := some ["čierna", "biela"] }

/-- Replacement list shorter than the original value list. -/
def aiShort : AIOpt := { name := "Farba", position := some 1, values := some ["čierna"] }

/-- The template of the expansion scenario: a root named by the brand
placeholder with one child suffixed Exteriér. -/
def tpl0 : JNode :=
  JNode.mk "" "\x7b\x7bBRAND\x7d\x7d" none none none
    (some [JNode.mk "" "\x7b\x7bBRAND\x7d\x7d Exteriér" none none none none])

/-- The raw taxonomy document of the expansion scenario. -/
def rawC6 : TaxoRaw :=
  TaxoRaw.obj
    { node := JNode.mk "" "" none none none none,
      BRANDS := some ["AUDI", "BMW"], TEMPLATE := some tpl0 }

/-- The second ensured node of the branch [nodeA, nodeB] over the empty
store. -/
def ensW : Ensured :=
  { ensId := 2, title := "AUDI Exteriér", node_slug := some "audi-exterier",
    facets := none, level := 1, parentId := some 1, childId := none }

/-! ### Helper lemmas -/

theorem alreadyExistsText_taken :
    alreadyExistsText "collection_id: has already been taken" = true := by
  decide

theorem pass_length (branch : List JNode) : ∀ (store : Store) (lvl : Nat),
    ((ensureBranchPass store lvl branch).1).length = branch.length := by
  induction branch with
  | nil => intro store lvl; rfl
  | cons n rest ih =>
    intro store lvl
    simp [ensureBranchPass, ih]

theorem pass_level (branch : List JNode) : ∀ (store : Store) (lvl i : Nat) (e : Ensured),
    ((ensureBranchPass store lvl branch).1)[i]? = some e → e.level = lvl + i := by
  induction branch with
  | nil => intro store lvl i e h; simp [ensureBranchPass] at h
  | cons n rest ih =>
    intro store lvl i e h
    cases i with
    | zero =>
      simp [ensureBranchPass] at h
      rw [← h]
      simp [ensureOneNode]
    | succ j =>
      simp [ensureBranchPass] at h
      have := ih _ (lvl + 1) j e h
      omega

theorem linkBranch_get (all : List Ensured) (i : Nat) (e0 : Ensured)
    (h : all[i]? = some e0) :
    (linkBranch all)[i]? = some
      { e0 with
        parentId := if i > 0 then ((all[i - 1]?).map (fun x => x.ensId)) else none
        childId := if i + 1 < all.length then ((all[i + 1]?).map (fun x => x.ensId))
          else none } := by
  have hi : i < all.length := by
    by_contra hcon
    rw [List.getElem?_eq_none (by omega)] at h
    exact Option.noConfusion h
  simp [linkBranch, List.getElem?_map, List.getElem?_range, hi, h]

theorem linkBranch_ensId (all : List Ensured) (i : Nat) (e0 : Ensured)
    (h : all[i]? = some e0) :
    ((linkBranch all)[i]?).map (fun x => x.ensId) = some e0.ensId := by
  rw [linkBranch_get all i e0 h]
  rfl

theorem byNameLookupGo_none (name : String) (l : List POpt) (idx : Nat)
    (h : ∀ o ∈ l, o.name ≠ name) : byNameLookupGo idx name l = none := by
  induction l generalizing idx with
  | nil => rfl
  | cons o rest ih =>
    have ho : o.name ≠ name := h o (List.mem_cons_self o rest)
    have hr := ih (idx + 1) (fun x hx => h x (List.mem_cons_of_mem o hx))
    simp [byNameLookupGo, hr, ho]

theorem posOfName_unknown (pOptions : List POpt) (name : String)
    (h : name ∉ pOptions.map POpt.name) : posOfName pOptions name = 0 := by
  have hall : ∀ o ∈ pOptions, o.name ≠ name := by
    intro o ho heq
    exact h (heq ▸ List.mem_map_of_mem POpt.name ho)
  simp [posOfName, byNameLookup, byNameLookupGo_none name pOptions 0 hall]

theorem stepTriple_skip (pOptions : List POpt) (m : List (Nat × List String))
    (acc : Option String × Option String × Option String) (so : String × String)
    (h : posOfName pOptions so.1 = 0 ∨ 3 < posOfName pOptions so.1) :
    stepTriple pOptions m acc so = acc := by
  have h1 : posOfName pOptions so.1 ≠ 1 := by omega
  have h2 : posOfName pOptions so.1 ≠ 2 := by omega
  have h3 : posOfName pOptions so.1 ≠ 3 := by omega
  simp [stepTriple, h1, h2, h3]

theorem attachStage_no_brand_no_names (tax : List JNode) (cr : ClassifyResult)
    (pid : Nat) (store : Store) (hb : cr.detectedBrand = none)
    (hc : (cr.collectionsFinal).getD [] = []) :
    attachStage tax cr pid store = (store, []) := by
  unfold attachStage
  rw [hb]
  cases hcf : cr.collectionsFinal with
  | none => rfl
  | some cols =>
    rw [hcf] at hc
    simp only [Option.getD_some] at hc
    simp [hc]

mutual
theorem findPathBy_finds (pred : JNode → Bool) :
    (path : List JNode) → (n : JNode) → (r : List JNode) →
      findPathBy pred path n = some r → ∃ m, m ∈ nodesOf n ∧ pred m = true
  | path, JNode.mk nm tl ns sl fc none, r, h => by
    by_cases hp : pred (JNode.mk nm tl ns sl fc none)
    · exact ⟨JNode.mk nm tl ns sl fc none, by simp [nodesOf], hp⟩
    · simp [findPathBy, hp] at h
  | path, JNode.mk nm tl ns sl fc (some cs), r, h => by
    by_cases hp : pred (JNode.mk nm tl ns sl fc (some cs))
    · exact ⟨JNode.mk nm tl ns sl fc (some cs), by simp [nodesOf], hp⟩
    · rw [findPathBy, if_neg hp] at h
      obtain ⟨m, hm, hpm⟩ := findPathByList_finds pred
        (path ++ [JNode.mk nm tl ns sl fc (some cs)]) cs r h
      exact ⟨m, by simp [nodesOf, hm], hpm⟩

theorem findPathByList_finds (pred : JNode → Bool) :
    (path : List JNode) → (cs : List JNode) → (r : List JNode) →
      findPathByList pred path cs = some r → ∃ m, m ∈ nodesOfList cs ∧ pred m = true
  | path, [], r, h => by simp [findPathByList] at h
  | path, c :: rest, r, h => by
    rw [findPathByList] at h
    cases hfc : findPathBy pred path c with
    | some r2 =>
      obtain ⟨m, hm, hpm⟩ := findPathBy_finds pred path c r2 hfc
      exact ⟨m, by simp [nodesOfList]; exact Or.inl hm, hpm⟩
    | none =>
      rw [hfc] at h
      obtain ⟨m, hm, hpm⟩ := findPathByList_finds pred path rest r h
      exact ⟨m, by simp [nodesOfList]; exact Or.inr hm, hpm⟩
end

mutual
theorem leavesWalk_complete (m : JNode) :
    (n : JNode) → (path : List String) → m ∈ nodesOf n → childrenOf m = [] →
      slugOf m ≠ "" → slugOf m ∈ (leavesWalk path n).map (fun x => slugOf x.1)
  | JNode.mk nm tl ns sl fc none, path, hm, hch, hs => by
    have hmn : m = JNode.mk nm tl ns sl fc none := by
      simpa [nodesOf] using hm
    subst hmn
    simp [leavesWalk, strTruthy, hs]
  | JNode.mk nm tl ns sl fc (some cs), path, hm, hch, hs => by
    rw [nodesOf] at hm
    rcases List.mem_cons.mp hm with hmn | hmrest
    · subst hmn
      have hcs : cs = [] := by
        simpa [childrenOf, JNode.children] using hch
      subst hcs
      simp [leavesWalk, strTruthy, hs]
    · match cs, hmrest with
      | c :: rest, hmrest2 =>
        rw [leavesWalk]
        exact leavesWalkList_complete m (c :: rest)
          (path ++ [nameOf (JNode.mk nm tl ns sl fc (some (c :: rest)))]) hmrest2 hch hs
      | [], hmrest2 => simp [nodesOfList] at hmrest2

theorem leavesWalkList_complete (m : JNode) :
    (cs : List JNode) → (path : List String) → m ∈ nodesOfList cs → childrenOf m = [] →
      slugOf m ≠ "" → slugOf m ∈ (leavesWalkList path cs).map (fun x => slugOf x.1)
  | [], path, hm, hch, hs => by simp [nodesOfList] at hm
  | c :: rest, path, hm, hch, hs => by
    rw [nodesOfList] at hm
    rw [leavesWalkList, List.map_append]
    rcases List.mem_append.mp hm with hml | hmr
    · exact List.mem_append_left _ (leavesWalk_complete m c path hml hch hs)
    · exact List.mem_append_right _ (leavesWalkList_complete m rest path hmr hch hs)
end

/-! ### Claim C1 -/

/-- Claim C1, counterexample.  The claim states that the slug picks the
caller goes on to use are always a subset of the whitelist supplied to
the classification service.  In the taxonomy taxC1 the node diely
carries a node_slug but has a child, so the whitelist (leaf slugs only)
is just brzdy; yet a raw response naming diely resolves through
getBranchBySlug and is used, and the handler goes on to create a
membership for its collection. -/
theorem used_picks_counterexample :
    "diely" ∈ usedSlugPicks taxC1 "AUDI" (Except.ok (some ["diely"])) ∧
    "diely" ∉ allowedSlugs taxC1 "AUDI" ∧
    detectBrandFromProduct pAudi outEmpty = some "AUDI" ∧
    (handlerModel taxC1 bodyAudi (some pAudi) outEmpty (Except.ok (some ["diely"]))
        store0).effects.contains (Effect.createCollectCall 88 2) = true := by
  refine ⟨by decide, by decide, by decide, by decide⟩

/-- Claim C1, amended.  Every slug pick the caller goes on to use is
contained in the whitelist supplied to the service, provided the two
root matchers agree on the brand and every slug-carrying node under the
brand root is a leaf; without those provisos a used pick is only
guaranteed to resolve somewhere in the brand's taxonomy tree. -/
theorem used_picks_in_whitelist (tax : List JNode) (brand : String)
    (cls : Except Unit ClsResp) (s : String)
    (hroot : findBrandRootLower tax brand = findBrandRootNorm tax brand)
    (hleaf : ∀ root, findBrandRootLower tax brand = some root →
      ∀ m, m ∈ nodesOf root → slugOf m ≠ "" → childrenOf m = [])
    (hs : s ∈ usedSlugPicks tax brand cls) :
    s ∈ allowedSlugs tax brand := by
  unfold usedSlugPicks at hs
  obtain ⟨hmem, hres⟩ := List.mem_filter.mp hs
  have hsne : s ≠ "" := by
    cases cls with
    | error u => simp [aiSlugPicks] at hmem
    | ok cl =>
      cases cl with
      | none => simp [aiSlugPicks] at hmem
      | some l =>
        simp only [aiSlugPicks] at hmem
        exact of_decide_eq_true (List.mem_filter.mp hmem).2
  by_cases hguard : tax.isEmpty || brand = "" || s = ""
  · have hb : getBranchBySlug tax brand s = [] := by
      unfold getBranchBySlug
      rw [if_pos hguard]
    rw [hb] at hres
    simp at hres
  · cases hfr : findBrandRootLower tax brand with
    | none =>
      have hb : getBranchBySlug tax brand s = [] := by
        unfold getBranchBySlug
        rw [if_neg hguard, hfr]
      rw [hb] at hres
      simp at hres
    | some root =>
      cases hfp : findPathBy (fun n => slugOf n == s) [] root with
      | none =>
        have hb : getBranchBySlug tax brand s = [] := by
          unfold getBranchBySlug
          rw [if_neg hguard, hfr]
          simp [hfp]
        rw [hb] at hres
        simp at hres
      | some r =>
        obtain ⟨m, hm, hpm⟩ := findPathBy_finds _ [] root r hfp
        have hms : slugOf m = s := by simpa using hpm
        have hch : childrenOf m = [] :=
          hleaf root hfr m hm (by rw [hms]; exact hsne)
        have hin : slugOf m ∈ (leavesWalk [] root).map (fun x => slugOf x.1) :=
          leavesWalk_complete m root [] hm hch (by rw [hms]; exact hsne)
        rw [hms] at hin
        have htax : ¬tax.isEmpty := by
          intro hx
          exact hguard (by simp [hx])
        have hbrand : brand ≠ "" := by
          intro hx
          exact hguard (by simp [hx])
        have hgl : getBrandLeaves tax brand = leavesWalk [] root := by
          unfold getBrandLeaves
          rw [if_neg (by simp [htax, hbrand]), ← hroot, hfr]
        unfold allowedSlugs allowedLeavesFor
        rw [hgl]
        obtain ⟨x, hx, hxs⟩ := List.mem_map.mp hin
        refine List.mem_map.mpr ⟨(slugOf x.1, String.intercalate " → " x.2), ?_, hxs⟩
        refine List.mem_filter.mpr ⟨List.mem_map.mpr ⟨x, hx, rfl⟩, ?_⟩
        simp [strTruthy, hxs, hsne]

/-- Witness for the amended claim C1 at a leaf-only taxonomy: the used
pick survives the foreign value and lands in the whitelist. -/
theorem used_picks_witness :
    "audi-exterier" ∈ allowedSlugs taxT "AUDI" :=
  used_picks_in_whitelist taxT "AUDI" (Except.ok (some ["garbage", "audi-exterier"]))
    "audi-exterier" rfl
    (by
      intro root hr m hm hslug
      have hr2 : (JNode.mk "AUDI" "" none none none (some
          [JNode.mk "AUDI Exteriér" "" (some "audi-exterier") none none (some [])])) = root :=
        Option.some.inj hr
      rw [← hr2] at hm
      simp only [nodesOf, nodesOfList, List.mem_cons, List.mem_append,
        List.not_mem_nil, or_false] at hm
      rcases hm with hm | hm
      · rw [hm] at hslug
        exact absurd rfl hslug
      · rw [hm]
        rfl)
    (by decide)

/-! ### Claim C2 -/

/-- Claim C2.  Attaching is idempotent: creating the same membership
twice leaves exactly one record in the store, the duplicate rejection
that reports an existing membership is treated as success, and the
first call actually creates the record. -/
theorem attach_idempotent (store : Store) (pid cid : Nat)
    (h : (pid, cid) ∉ store.collects) :
    ((restCreateCollect (restCreateCollect store pid cid).2.1 pid cid).2.1).collects.count
        (pid, cid) = 1 ∧
    (restCreateCollect (restCreateCollect store pid cid).2.1 pid cid).1 = Except.ok none ∧
    (restCreateCollect store pid cid).1 =
      Except.ok (some (CollectResult.created pid cid)) := by
  have h0 : store.collects.count (pid, cid) = 0 := List.count_eq_zero.mpr h
  have e1 : restCreateCollect store pid cid =
      (Except.ok (some (CollectResult.created pid cid)),
       { store with collects := store.collects ++ [(pid, cid)] },
       [Effect.createCollectCall pid cid]) := by
    simp [restCreateCollect, collectsEndpointPost, h]
  have e2 : restCreateCollect { store with collects := store.collects ++ [(pid, cid)] } pid cid =
      (Except.ok none, { store with collects := store.collects ++ [(pid, cid)] },
       [Effect.createCollectCall pid cid]) := by
    simp [restCreateCollect, collectsEndpointPost, alreadyExistsText_taken]
  refine ⟨?_, ?_, ?_⟩
  · simp [e1, e2, h0]
  · simp [e1, e2]
  · simp [e1]

/-- Witness for claim C2 on the empty store. -/
theorem attach_idempotent_witness :
    ((restCreateCollect (restCreateCollect store0 5 9).2.1 5 9).2.1).collects.count (5, 9) = 1 ∧
    (restCreateCollect (restCreateCollect store0 5 9).2.1 5 9).1 = Except.ok none ∧
    (restCreateCollect store0 5 9).1 = Except.ok (some (CollectResult.created 5 9)) :=
  attach_idempotent store0 5 9 (by decide)

/-! ### Claim C3 -/

/-- Claim C3, counterexample.  The claim states that a replacement list
shorter than the original leaves the value unchanged; with original
values Black and White and the one-entry replacement list the variant
selecting Black is nevertheless translated. -/
theorem remap_shorter_list_counterexample :
    (["čierna"] : List String).length < (["Black", "White"] : List String).length ∧
    computeTriple pOptsC3 (newValuesByPos [aiShort]) [("Color", "Black")] =
      (some "čierna", none, none) ∧
    ("čierna" : String) ≠ "Black" := by
  refine ⟨by decide, by decide, by decide⟩

/-- Claim C3, amended.  The remapper substitutes the replacement at the
old value's first index whenever the replacement list has an entry at
that index, also when the replacement list is shorter than the
original; the value passes through unchanged exactly when the old value
is absent, no replacement list exists for the position, or the
replacement list has no entry at that index.  The round-trip scenario
of the claim holds. -/
theorem remap_amended :
    (∀ (ov nl : List String) (v : String) (i : Nat)
        (_hf : ov.findIdx? (fun x => x == v) = some i) (hlt : i < nl.length),
        mapValue ov (some nl) v = nl.get ⟨i, hlt⟩) ∧
    (∀ (ov nl : List String) (v : String) (i : Nat),
        ov.findIdx? (fun x => x == v) = some i → nl.length ≤ i →
        mapValue ov (some nl) v = v) ∧
    (∀ (ov nl : List String) (v : String),
        ov.findIdx? (fun x => x == v) = none → mapValue ov (some nl) v = v) ∧
    (∀ (ov : List String) (v : String), mapValue ov none v = v) ∧
    computeTriple pOptsC3 (newValuesByPos [aiFull]) [("Color", "Black")] =
      (some "čierna", none, none) ∧
    computeTriple pOptsC3 (newValuesByPos [aiFull]) [("Color", "Silver")] =
      (some "Silver", none, none) := by
  refine ⟨?_, ?_, ?_, ?_, by decide, by decide⟩
  · intro ov nl v i hf hlt
    simp [mapValue, hf, List.get?_eq_getElem?, List.getElem?_eq_getElem hlt,
      List.get_eq_getElem]
  · intro ov nl v i hf hle
    have hnone : nl[i]? = none := List.getElem?_eq_none hle
    simp [mapValue, hf, hnone]
  · intro ov nl v hf
    simp [mapValue, hf]
  · intro ov v
    simp [mapValue]

/-- Witness for the amended claim C3: a shorter replacement list still
substitutes at a covered index, and an absent old value passes
through. -/
theorem remap_amended_witness :
    mapValue ["Black", "White"] (some ["čierna"]) "Black" =
      (["čierna"] : List String).get ⟨0, by decide⟩ ∧
    mapValue ["Black", "White"] (some ["čierna", "biela"]) "Silver" = "Silver" := by
  refine ⟨remap_amended.1 ["Black", "White"] ["čierna"] "Black" 0 (by decide) (by decide), ?_⟩
  exact remap_amended.2.2.1 ["Black", "White"] ["čierna", "biela"] "Silver" (by decide)

/-! ### Claim C4 -/

/-- Claim C4, counterexample.  The claim states that with no detected
brand no membership-creation call occurs; here no brand is detected,
yet the name-based fallback attaches the collection named in the
rewrite output and a collect call is issued. -/
theorem no_brand_counterexample :
    detectBrandFromProduct pC4 outC4 = none ∧
    (handlerModel taxT bodyC4 (some pC4) outC4 (Except.error ()) store0).effects.contains
        (Effect.createCollectCall 77 1) = true := by
  refine ⟨by decide, by decide⟩

/-- Claim C4, amended.  When no brand is detected the slug-based
classification is skipped (the slug picks are empty), and no
membership-creation call occurs provided the name-based collection
list of the rewrite output is also empty after the fall-backs and
filters; a non-empty name-based list can still be attached without a
brand. -/
theorem no_brand_skips_classification_and_attach (tax : List JNode) (p : Product)
    (out : RewriteOut) (cls : Except Unit ClsResp) (body : Body) (store : Store)
    (hbrand : detectBrandFromProduct p out = none)
    (hcols : ((classifyStage tax p out cls body).collectionsFinal).getD [] = []) :
    (classifyStage tax p out cls body).slugPicks = [] ∧
    ∀ pid cid, Effect.createCollectCall pid cid ∉
      (handlerModel tax body (some p) out cls store).effects := by
  have hcr : (classifyStage tax p out cls body).detectedBrand = none := by
    simp [classifyStage, hbrand]
  have hpicks : (classifyStage tax p out cls body).slugPicks = [] := by
    simp [classifyStage, hbrand]
  refine ⟨hpicks, ?_⟩
  intro pid cid
  unfold handlerModel
  by_cases hp : processedFlag p
  · simp [hp]
  · simp only [hp, Bool.false_eq_true, if_false]
    rw [attachStage_no_brand_no_names tax _ body.numId store hcr hcols]
    simp

/-- Witness for the amended claim C4: no brand, no collections, hence
empty slug picks and no collect call for a sample pair. -/
theorem no_brand_witness :
    (classifyStage taxT pC4 outEmpty (Except.error ()) bodyC4).slugPicks = [] ∧
    Effect.createCollectCall 77 1 ∉
      (handlerModel taxT bodyC4 (some pC4) outEmpty (Except.error ()) store0).effects := by
  have h := no_brand_skips_classification_and_attach taxT pC4 outEmpty (Except.error ())
    bodyC4 store0 (by decide) (by decide)
  exact ⟨h.1, h.2 77 1⟩

/-! ### Claim C5 -/

/-- Claim C5, counterexample.  The claim states that the ensured branch
forms a simple path with no cycles; when the store already holds a
collection whose normalized title extends the branch root's title, the
prefix fallback resolves both branch nodes to the same collection and
the second ensured node's parent pointer is its own collection,
a cycle. -/
theorem branch_cycle_counterexample :
    ((ensureBranchAndTaxonomy storeC5 [nodeA, nodeB]).1).map
        (fun e => (e.ensId, e.level, e.parentId, e.childId)) =
      [(1, 0, none, some 1), (1, 1, some 1, none)] ∧
    ∃ e ∈ (ensureBranchAndTaxonomy storeC5 [nodeA, nodeB]).1,
      e.parentId = some e.ensId := by
  refine ⟨by decide, ?_⟩
  refine ⟨{ ensId := 1, title := "AUDI Exteriér", node_slug := some "audi-exterier",
            facets := none, level := 1, parentId := some 1, childId := none }, by decide, rfl⟩

/-- Claim C5, amended.  For every branch the ensured sequence has as
many nodes as the branch, the node at index i carries level i, the
first node has no parent, the last node has no child, and each node's
parent and child pointers name the collection ids of its immediate
neighbours in the sequence; distinctness of those collection ids (and
hence acyclicity over collections) is not guaranteed because the
prefix-fallback title lookup may resolve two branch titles to one
collection. -/
theorem ensured_branch_levels_and_links (store : Store) (branch : List JNode)
    (i : Nat) (e : Ensured)
    (h : ((ensureBranchAndTaxonomy store branch).1)[i]? = some e) :
    (ensureBranchAndTaxonomy store branch).1.length = branch.length ∧
    e.level = i ∧
    e.parentId = (if i = 0 then none
      else (((ensureBranchAndTaxonomy store branch).1)[i - 1]?).map (fun x => x.ensId)) ∧
    e.childId = (if i + 1 < branch.length then
      (((ensureBranchAndTaxonomy store branch).1)[i + 1]?).map (fun x => x.ensId)
      else none) := by
  have hfst : (ensureBranchAndTaxonomy store branch).1 =
      linkBranch (ensureBranchPass store 0 branch).1 := rfl
  set es := (ensureBranchPass store 0 branch).1 with hes
  rw [hfst] at h ⊢
  have hlen : es.length = branch.length := pass_length branch store 0
  have hlinklen : (linkBranch es).length = es.length := by simp [linkBranch]
  have hi : i < es.length := by
    by_contra hcon
    rw [List.getElem?_eq_none (by omega)] at h
    exact Option.noConfusion h
  obtain ⟨e0, he0⟩ : ∃ e0, es[i]? = some e0 := by
    rw [List.getElem?_eq_getElem hi]
    exact ⟨_, rfl⟩
  have hg := linkBranch_get es i e0 he0
  rw [hg] at h
  have he : e = { e0 with
      parentId := if i > 0 then ((es[i - 1]?).map (fun x => x.ensId)) else none
      childId := if i + 1 < es.length then ((es[i + 1]?).map (fun x => x.ensId))
        else none } :=
    (Option.some.inj h).symm
  refine ⟨by rw [hlinklen, hlen], ?_, ?_, ?_⟩
  · rw [he]
    have := pass_level branch store 0 i e0 he0
    simpa using this
  · rw [he]
    by_cases h0 : i = 0
    · simp [h0]
    · have hpos : i > 0 := Nat.pos_of_ne_zero h0
      have hj : i - 1 < es.length := by omega
      obtain ⟨e1, he1⟩ : ∃ e1, es[i - 1]? = some e1 := by
        rw [List.getElem?_eq_getElem hj]
        exact ⟨_, rfl⟩
      simp only [if_pos hpos, if_neg h0]
      rw [he1, linkBranch_ensId es (i - 1) e1 he1]
      rfl
  · rw [he]
    by_cases hc : i + 1 < branch.length
    · have hc2 : i + 1 < es.length := by omega
      obtain ⟨e1, he1⟩ : ∃ e1, es[i + 1]? = some e1 := by
        rw [List.getElem?_eq_getElem hc2]
        exact ⟨_, rfl⟩
      simp only [if_pos hc, if_pos hc2]
      rw [he1, linkBranch_ensId es (i + 1) e1 he1]
      rfl
    · have hc2 : ¬(i + 1 < es.length) := by omega
      simp [if_neg hc, if_neg hc2]

/-- Witness for the amended claim C5 at the second node of a two-node
branch over the empty store. -/
theorem ensured_branch_witness :
    (ensureBranchAndTaxonomy store0 [nodeA, nodeB]).1.length =
      ([nodeA, nodeB] : List JNode).length ∧
    ensW.level = 1 ∧
    ensW.parentId = (if 1 = 0 then none
      else (((ensureBranchAndTaxonomy store0 [nodeA, nodeB]).1)[1 - 1]?).map
        (fun x => x.ensId)) ∧
    ensW.childId = (if 1 + 1 < ([nodeA, nodeB] : List JNode).length then
      (((ensureBranchAndTaxonomy store0 [nodeA, nodeB]).1)[1 + 1]?).map (fun x => x.ensId)
      else none) :=
  ensured_branch_levels_and_links store0 [nodeA, nodeB] 1 ensW (by decide)

/-! ### Claim C6 -/

/-- Claim C6.  A BRANDS and TEMPLATE definition expands into one
independent root per brand, the template cloned once per brand with the
brand placeholder substituted in every node name; in particular the
AUDI and BMW template of the claim expands to exactly the two expected
roots with correctly substituted children. -/
theorem template_expansion (o : TaxoRawObj) (brands : List String) (tpl : JNode)
    (h1 : o.BRANDS = some brands) (h2 : o.TEMPLATE = some tpl)
    (h3 : isPreExpandedObj o = false) (h4 : brands ≠ []) :
    loadTaxonomia (TaxoRaw.obj o) = brands.map (expandBrand tpl) ∧
    (loadTaxonomia (TaxoRaw.obj o)).length = brands.length ∧
    loadTaxonomia rawC6 =
      [JNode.mk "AUDI" "" none none none
        (some [JNode.mk "AUDI Exteriér" "\x7b\x7bBRAND\x7d\x7d Exteriér" none none none
          (some [])]),
       JNode.mk "BMW" "" none none none
        (some [JNode.mk "BMW Exteriér" "\x7b\x7bBRAND\x7d\x7d Exteriér" none none none
          (some [])])] := by
  have hb : ¬brands.isEmpty := by simp [h4]
  refine ⟨?_, ?_, ?_⟩
  · simp [loadTaxonomia, parseTaxonomia, h1, h2, h3, hb]
  · simp [loadTaxonomia, parseTaxonomia, h1, h2, h3, hb]
  · rfl

/-- Witness for claim C6 at the concrete BRANDS and TEMPLATE document. -/
theorem template_expansion_witness :
    loadTaxonomia rawC6 = ["AUDI", "BMW"].map (expandBrand tpl0) ∧
    (loadTaxonomia rawC6).length = (["AUDI", "BMW"] : List String).length ∧
    loadTaxonomia rawC6 =
      [JNode.mk "AUDI" "" none none none
        (some [JNode.mk "AUDI Exteriér" "\x7b\x7bBRAND\x7d\x7d Exteriér" none none none
          (some [])]),
       JNode.mk "BMW" "" none none none
        (some [JNode.mk "BMW Exteriér" "\x7b\x7bBRAND\x7d\x7d Exteriér" none none none
          (some [])])] :=
  template_expansion
    { node := JNode.mk "" "" none none none none,
      BRANDS := some ["AUDI", "BMW"], TEMPLATE := some tpl0 }
    ["AUDI", "BMW"] tpl0 rfl rfl rfl (by decide)

/-! ### Claim C7 -/

/-- Claim C7.  Two leaf names with equal normalized forms (same up to
case, diacritics, whitespace and dash variants) resolve to the same
branch in any taxonomy. -/
theorem branch_lookup_respects_normalization (tax : List JNode) (a b : String)
    (h : normalizeForMatch a = normalizeForMatch b) :
    getTaxonomyBranchNodesFromLeaf tax a = getTaxonomyBranchNodesFromLeaf tax b := by
  unfold getTaxonomyBranchNodesFromLeaf
  rw [h]

/-- Witness for claim C7: a doubled space, different case and a
stripped accent resolve identically. -/
theorem branch_lookup_witness :
    getTaxonomyBranchNodesFromLeaf taxT "AUDI  Exteriér" =
      getTaxonomyBranchNodesFromLeaf taxT "audi exteriér" :=
  branch_lookup_respects_normalization taxT "AUDI  Exteriér" "audi exteriér" (by decide)

/-! ### Claim C8 -/

/-- Claim C8.  When parsing or expanding the taxonomy definition fails,
loading yields the empty forest (the load is a total function, so
nothing is thrown upward) and branch lookup on the result returns the
empty sequence. -/
theorem load_failure_yields_empty_forest (raw : TaxoRaw) (name : String)
    (h : (parseTaxonomia raw).toOption = none) :
    loadTaxonomia raw = [] ∧
    getTaxonomyBranchNodesFromLeaf (loadTaxonomia raw) name = [] := by
  unfold loadTaxonomia
  cases hp : parseTaxonomia raw with
  | ok t => rw [hp] at h; simp [Except.toOption] at h
  | error e => simp [getTaxonomyBranchNodesFromLeaf]

/-- Witness for claim C8 on a malformed document. -/
theorem load_failure_witness :
    loadTaxonomia TaxoRaw.malformed = [] ∧
    getTaxonomyBranchNodesFromLeaf (loadTaxonomia TaxoRaw.malformed) "AUDI Exteriér" = [] :=
  load_failure_yields_empty_forest TaxoRaw.malformed "AUDI Exteriér" rfl

/-! ### Claim C9 -/

/-- Claim C9.  A product already carrying the processed flag makes the
handler return the already-processed response with an empty write
trace and the remote store unchanged. -/
theorem handler_short_circuits_when_processed (tax : List JNode) (body : Body)
    (p : Product) (out : RewriteOut) (cls : Except Unit ClsResp) (store : Store)
    (h : processedFlag p = true) :
    handlerModel tax body (some p) out cls store =
      { status := 200, message := "Already processed", effects := [], store := store } := by
  simp [handlerModel, h]

/-- Witness for claim C9 on a product with the processed metafield. -/
theorem handler_short_circuits_witness :
    handlerModel taxT bodyProcessed (some pProcessed) outEmpty (Except.error ()) store0 =
      { status := 200, message := "Already processed", effects := [], store := store0 } :=
  handler_short_circuits_when_processed taxT bodyProcessed pProcessed outEmpty
    (Except.error ()) store0 (by decide)

/-! ### Claim C10 -/

/-- Claim C10.  A selected option whose name is unknown among the
product options, or whose derived 1-based position exceeds three, never
contributes to the variant update request: the position lookup totally
falls back to zero for an unknown name, and removing such a selected
option leaves the update payload unchanged. -/
theorem unknown_or_high_position_never_contributes (pOptions : List POpt)
    (m : List (Nat × List String)) (sos1 sos2 : List (String × String))
    (so : String × String) (gid : String)
    (h : so.1 ∉ pOptions.map POpt.name ∨ 3 < posOfName pOptions so.1) :
    (posOfName pOptions so.1 = 0 ∨ 3 < posOfName pOptions so.1) ∧
    restUpdateVariantOptionsPayload gid (computeTriple pOptions m (sos1 ++ so :: sos2)) =
      restUpdateVariantOptionsPayload gid (computeTriple pOptions m (sos1 ++ sos2)) := by
  have hpos : posOfName pOptions so.1 = 0 ∨ 3 < posOfName pOptions so.1 := by
    rcases h with h | h
    · exact Or.inl (posOfName_unknown pOptions so.1 h)
    · exact Or.inr h
  refine ⟨hpos, ?_⟩
  unfold computeTriple
  rw [List.foldl_append, List.foldl_append]
  congr 1
  rw [List.foldl_cons, stepTriple_skip pOptions m _ so hpos]

/-- Witness for claim C10: a selected option with an unknown name has
position zero and its removal leaves the payload unchanged. -/
theorem unknown_position_witness :
    (posOfName pOptsC3 "Size" = 0 ∨ 3 < posOfName pOptsC3 "Size") ∧
    restUpdateVariantOptionsPayload "gid://shopify/ProductVariant/5"
        (computeTriple pOptsC3 (newValuesByPos [aiFull])
          ([] ++ ("Size", "XL") :: [("Color", "Black")])) =
      restUpdateVariantOptionsPayload "gid://shopify/ProductVariant/5"
        (computeTriple pOptsC3 (newValuesByPos [aiFull]) ([] ++ [("Color", "Black")])) :=
  unknown_or_high_position_never_contributes pOptsC3 (newValuesByPos [aiFull]) []
    [("Color", "Black")] ("Size", "XL") "gid://shopify/ProductVariant/5" (Or.inl (by decide))

end AutoRewrite
